import Mathlib

/-!
Verification of the stale-deployment reclamation subsystem
(`deleteUnusedStacks.ts`: `deleteUnusedMainStacks`, `deleteUnusedPrStacks`,
`isSupersededVersion`, `isEmbargoed`, `getVersion`, `isClosedPullRequest`,
`getHostedZoneInfo`, `deleteStack`, `getActiveApiVersions`).

The TypeScript source is shallowly embedded: strings are lists of
characters, timestamps are integers (milliseconds since the epoch),
`Date.now()` is an explicit `now` parameter, and the external collaborators
(CloudFormation, Route 53, the APIM status endpoint and the GitHub API) are
passed in as function parameters.  An HTTP interaction is modelled as a
value that is either a resolved response (with its `ok` flag and parsed
body) or a rejected promise; a rejected promise surfaces as `Except.error`,
mirroring an uncaught exception.
-/

namespace DeleteUnusedStacks

/-- Character class `[\da-z-]` used by the versioned-stack regex. -/
def isVersionChar (c : Char) : Bool :=
  c.isDigit || (97 ≤ c.toNat && c.toNat ≤ 122) || c = '-'

/-- Strips `p` from the front of `s`, returning the remainder, or `none`
when `p` is not a prefix of `s`. -/
def dropPrefix? : List Char → List Char → Option (List Char)
  | [], s => some s
  | _ :: _, [] => none
  | p :: ps, c :: cs => if p = c then dropPrefix? ps cs else none

/-- `subst` occurs contiguously inside `s` (JavaScript `String.includes`). -/
def containsSub (subst : List Char) : List Char → Bool
  | [] => subst.isPrefixOf []
  | c :: rest => subst.isPrefixOf (c :: rest) || containsSub subst rest

/-- `"-sandbox"` as a character list. -/
def sandboxLit : List Char := ['-', 's', 'a', 'n', 'd', 'b', 'o', 'x']

/-- `"pr-"` as a character list. -/
def prLit : List Char := ['p', 'r', '-']

/-- `"-pr-"` as a character list. -/
def dashPrLit : List Char := ['-', 'p', 'r', '-']

/-- `"DELETE_COMPLETE"` as a character list. -/
def deleteCompleteLit : List Char :=
  ['D', 'E', 'L', 'E', 'T', 'E', '_', 'C', 'O', 'M', 'P', 'L', 'E', 'T', 'E']

/-- `"closed"` as a character list. -/
def closedLit : List Char := ['c', 'l', 'o', 's', 'e', 'd']

/-- `"undefined"`: what a missing `StackName` coerces to when the source
applies the regex to `stack.StackName!`. -/
def undefinedLit : List Char := ['u', 'n', 'd', 'e', 'f', 'i', 'n', 'e', 'd']

/-- `"CNAME"` as a character list. -/
def cnameLit : List Char := ['C', 'N', 'A', 'M', 'E']

/-- `version.replaceAll(".", "-")`. -/
def normalize (v : List Char) : List Char :=
  v.map fun c => if c = '.' then '-' else c

/-- The tail part `-(?<version>[\da-z-]+)?$` of the versioned-stack regex:
given the text after the (optional) `-sandbox` group, returns `some none`
when the regex matches with the version group absent, `some (some v)` when
it matches with version group `v`, and `none` when it does not match. -/
def versionTail : List Char → Option (Option (List Char))
  | [] => none
  | c :: v =>
    if c = '-' then
      if v.all isVersionChar then some (if v = [] then none else some v) else none
    else none

/-- Matching `(?<sandbox>-sandbox)?-(?<version>[\da-z-]+)?$` against the
text following the base name, trying the greedy `-sandbox` branch first and
backtracking to the plain branch, as the regex engine does.  Returns the
version group (possibly absent) and the sandbox flag. -/
def fullMatch (rest : List Char) : Option (Option (List Char) × Bool) :=
  match dropPrefix? sandboxLit rest with
  | some r2 =>
    match versionTail r2 with
    | some v? => some (v?, true)
    | none =>
      match versionTail rest with
      | some v? => some (v?, false)
      | none => none
  | none =>
    match versionTail rest with
    | some v? => some (v?, false)
    | none => none

/-- `getVersion(stackName, baseStackName)`: runs the anchored regex
`^{base}(?<sandbox>-sandbox)?-(?<version>[\da-z-]+)?$` and returns `null`
when there is no match, the version group is absent, or the version group
starts with `pr-`. -/
def getVersion (stackName baseStackName : List Char) : Option (List Char × Bool) :=
  match dropPrefix? baseStackName stackName with
  | none => none
  | some rest =>
    match fullMatch rest with
    | none => none
    | some (v?, sb) =>
      match v? with
      | none => none
      | some v =>
        match dropPrefix? prLit v with
        | some _ => none
        | none => some (v, sb)

/-- PR-id extraction from `^{base}-pr-(?<pullRequestId>\d+)(-sandbox)?$`
inside `isClosedPullRequest`. -/
def prIdOf (stackName baseStackName : List Char) : Option (List Char) :=
  match dropPrefix? (baseStackName ++ dashPrLit) stackName with
  | none => none
  | some rest =>
    let ds := rest.takeWhile Char.isDigit
    let tail := rest.dropWhile Char.isDigit
    if ds = [] then none
    else if tail = [] ∨ tail = sandboxLit then some ds else none

/-- `ActiveVersions`: the base-environment version is a `string`, the
sandbox version is `string | null`. -/
structure ActiveVersions where
  baseEnvVersion : List Char
  sandboxEnvVersion : Option (List Char)
deriving DecidableEq

/-- `StackSummary`: the fields of a CloudFormation stack summary the
subsystem reads.  `StackName` and `CreationTime` are optional in the SDK. -/
structure StackSummary where
  stackName : Option (List Char)
  stackStatus : List Char
  creationTime : Option Int
deriving DecidableEq

/-- `stack.StackName!` as the regexes receive it: a missing name coerces to
the string `"undefined"`. -/
def forceName (s : StackSummary) : List Char :=
  s.stackName.getD undefinedLit

/-- 24 hours in milliseconds. -/
def embargoWindow : Int := 24 * 60 * 60 * 1000

/-- `isEmbargoed(deployDate)`: `!!deployDate && Date.now() - deployDate.getTime() < 24h`. -/
def isEmbargoed (now : Int) (deployDate : Option Int) : Bool :=
  match deployDate with
  | none => false
  | some t => decide (now - t < embargoWindow)

/-- `isSupersededVersion(stack, baseStackName, activeVersions)`. -/
def isSupersededVersion (now : Int) (stack : StackSummary)
    (baseStackName : List Char) (activeVersions : ActiveVersions) : Bool :=
  match getVersion (forceName stack) baseStackName with
  | none => false
  | some (version, isSandbox) =>
    if isEmbargoed now stack.creationTime then false
    else
      match (if isSandbox then activeVersions.sandboxEnvVersion
             else some activeVersions.baseEnvVersion) with
      | none => false
      | some currentVersion =>
        if currentVersion = [] then false
        else decide (version ≠ normalize currentVersion)

/-- The outcome of one `fetch` of a GitHub pull request: either the promise
rejected, or it resolved with an `ok` flag and the parsed `state` field of
the JSON body (`none` when the field is absent). -/
inductive FetchOutcome where
  | reject
  | resp (ok : Bool) (state : Option (List Char))

/-- `isClosedPullRequest(stackName, baseStackName, repoName)`: matches the
PR-stack regex, then fetches the pull request keyed by its id.  A rejected
fetch is an uncaught exception (`Except.error`); a resolved non-ok response
or a state other than `"closed"` yields `false`. -/
def isClosedPullRequest (stackName baseStackName : List Char)
    (fetchPr : List Char → FetchOutcome) : Except Unit Bool :=
  match prIdOf stackName baseStackName with
  | none => .ok false
  | some pullRequestId =>
    match fetchPr pullRequestId with
    | .reject => .error ()
    | .resp ok state =>
      if ¬ ok then .ok false
      else if state ≠ some closedLit then .ok false
      else .ok true

/-- A Route 53 resource record set: `Name` is optional in the SDK. -/
structure ResourceRecordSet where
  name : Option (List Char)
  type : List Char
deriving DecidableEq

/-- `getHostedZoneInfo(route53Client, hostedZoneName)`: with no zone name,
or when the zone lookup yields no id, the result is `(undefined, [])`;
otherwise the zone's record sets are listed and filtered to `CNAME`s. -/
def getHostedZoneInfo (hostedZoneName : Option (List Char))
    (findZone : List Char → Option (List Char))
    (records : List ResourceRecordSet) :
    Option (List Char) × List ResourceRecordSet :=
  match hostedZoneName with
  | none => (none, [])
  | some zoneName =>
    match findZone zoneName with
    | none => (none, [])
    | some hostedZoneId =>
      (some hostedZoneId, records.filter fun r => r.type = cnameLit)

/-- The filter of `deleteStack`'s alias cleanup:
`r.Name?.includes(stackName)` — a record with no `Name` never matches. -/
def recordMatches (stackName : List Char) (r : ResourceRecordSet) : Bool :=
  match r.name with
  | none => false
  | some n => containsSub stackName n

/-- The alias-cleanup half of `deleteStack`: the records whose `Name`
contains the stack name are collected; with no hosted zone id or no
matching record nothing is sent (`none`), otherwise one batched
`ChangeResourceRecordSets` request carrying exactly the matches is sent. -/
def aliasBatch (hostedZoneId : Option (List Char))
    (cnameRecords : List ResourceRecordSet) (stackName : List Char) :
    Option (List ResourceRecordSet) :=
  let toDelete := cnameRecords.filter (recordMatches stackName)
  if hostedZoneId.isNone ∨ toDelete = [] then none else some toDelete

/-- The full effect of `deleteStack` on the external world: the
CloudFormation `DeleteStackCommand` is always issued for the given name,
and the alias batch is sent afterwards when non-`none`. -/
def deleteStackEffect (hostedZoneId : Option (List Char))
    (cnameRecords : List ResourceRecordSet) (stackName : List Char) :
    List Char × Option (List ResourceRecordSet) :=
  (stackName, aliasBatch hostedZoneId cnameRecords stackName)

/-- The predicate of the settling-guard `allStacks.find(...)` in
`deleteUnusedMainStacks`: a non-sandbox versioned stack whose version
equals the normalized active base-environment version. -/
def activePred (baseStackName : List Char) (activeVersions : ActiveVersions)
    (stack : StackSummary) : Bool :=
  match getVersion (forceName stack) baseStackName with
  | none => false
  | some (version, isSandbox) =>
    !isSandbox && decide (version = normalize activeVersions.baseEnvVersion)

/-- The `for` loop of `deleteUnusedMainStacks`.  `del` reports whether the
`deleteStack` call for a given name resolved (`true`) or rejected
(`false`); a rejection is uncaught, so the loop stops and the remaining
allStacks are never examined.  Returns the successfully deleted names and
whether the run aborted. -/
def mainLoop (now : Int) (baseStackName : List Char)
    (activeVersions : ActiveVersions) (del : List Char → Bool) :
    List StackSummary → List (List Char) × Bool
  | [] => ([], false)
  | stack :: rest =>
    if stack.stackStatus = deleteCompleteLit ∨ stack.stackName = none then
      mainLoop now baseStackName activeVersions del rest
    else if isSupersededVersion now stack baseStackName activeVersions then
      if del (forceName stack) then
        ((forceName stack) :: (mainLoop now baseStackName activeVersions del rest).1,
         (mainLoop now baseStackName activeVersions del rest).2)
      else ([], true)
    else mainLoop now baseStackName activeVersions del rest

/-- `deleteUnusedMainStacks`: computes the settling guard from the first
enumerated stack matching `activePred`, then runs the deletion loop.
Returns the deleted stack names and whether the run aborted on a failed
deletion. -/
def deleteUnusedMainStacks (now : Int) (baseStackName : List Char)
    (activeVersions : ActiveVersions) (allStacks : List StackSummary)
    (del : List Char → Bool) : List (List Char) × Bool :=
  let activeVersionDeployed :=
    (allStacks.find? (activePred baseStackName activeVersions)).bind (·.creationTime)
  if isEmbargoed now activeVersionDeployed then ([], false)
  else mainLoop now baseStackName activeVersions del allStacks

/-- The `for` loop of `deleteUnusedPrStacks`.  An exception from
`isClosedPullRequest` (rejected fetch) or from `deleteStack` is uncaught
and stops the loop. -/
def prLoop (baseStackName : List Char) (fetchPr : List Char → FetchOutcome)
    (del : List Char → Bool) : List StackSummary → List (List Char) × Bool
  | [] => ([], false)
  | stack :: rest =>
    if stack.stackStatus = deleteCompleteLit ∨ stack.stackName = none then
      prLoop baseStackName fetchPr del rest
    else
      match isClosedPullRequest (forceName stack) baseStackName fetchPr with
      | .error _ => ([], true)
      | .ok false => prLoop baseStackName fetchPr del rest
      | .ok true =>
        if del (forceName stack) then
          ((forceName stack) :: (prLoop baseStackName fetchPr del rest).1,
           (prLoop baseStackName fetchPr del rest).2)
        else ([], true)

/-- `deleteUnusedPrStacks`: sweeps the enumerated stack list for closed-PR
deployments.  Returns the deleted stack names and whether the run
aborted. -/
def deleteUnusedPrStacks (baseStackName : List Char)
    (allStacks : List StackSummary) (fetchPr : List Char → FetchOutcome)
    (del : List Char → Bool) : List (List Char) × Bool :=
  prLoop baseStackName fetchPr del allStacks

/-- `"int"` as a character list. -/
def intLit : List Char := ['i', 'n', 't']

/-- `"internal-dev"` as a character list. -/
def internalDevLit : List Char :=
  ['i', 'n', 't', 'e', 'r', 'n', 'a', 'l', '-', 'd', 'e', 'v']

/-- `"sandbox"` as a character list. -/
def sandboxDomainLit : List Char := ['s', 'a', 'n', 'd', 'b', 'o', 'x']

/-- `"internal-dev-sandbox"` as a character list. -/
def internalDevSandboxLit : List Char :=
  ['i', 'n', 't', 'e', 'r', 'n', 'a', 'l', '-', 'd', 'e', 'v', '-',
   's', 'a', 'n', 'd', 'b', 'o', 'x']

/-- `getActiveApiVersions(basePath)`: the oracle is
`getActiveApiVersion(apimDomain, basePath)`, which throws on a non-ok
response.  The base-environment call is uncaught; the sandbox call is
wrapped in `try/catch` and only made for `int` and `internal-dev`.  The
second component records every sandbox domain queried. -/
def getActiveApiVersions (apigeeEnv : List Char)
    (oracle : List Char → Except Unit (List Char)) :
    Except Unit (ActiveVersions × List (List Char)) :=
  match oracle apigeeEnv with
  | .error e => .error e
  | .ok baseEnvVersion =>
    if apigeeEnv = intLit then
      match oracle sandboxDomainLit with
      | .ok v => .ok (⟨baseEnvVersion, some v⟩, [sandboxDomainLit])
      | .error _ => .ok (⟨baseEnvVersion, none⟩, [sandboxDomainLit])
    else if apigeeEnv = internalDevLit then
      match oracle internalDevSandboxLit with
      | .ok v => .ok (⟨baseEnvVersion, some v⟩, [internalDevSandboxLit])
      | .error _ => .ok (⟨baseEnvVersion, none⟩, [internalDevSandboxLit])
    else .ok (⟨baseEnvVersion, none⟩, [])

/-- Shorthand for embedding string literals as character lists. -/
def str (s : String) : List Char := s.data

theorem dropPrefix?_append (p r : List Char) : dropPrefix? p (p ++ r) = some r := by
  induction p with
  | nil => rfl
  | cons c cs ih => simp [dropPrefix?, ih]

theorem dropPrefix?_self (p : List Char) : dropPrefix? p p = some [] := by
  simpa using dropPrefix?_append p []

theorem dropPrefix?_too_long (p : List Char) (c : Char) (cs : List Char) :
    dropPrefix? (p ++ c :: cs) p = none := by
  induction p with
  | nil => rfl
  | cons d ds ih => simp [dropPrefix?, ih]

theorem takeWhile_eq_self_of_all {p : Char → Bool} {l : List Char}
    (h : l.all p = true) : l.takeWhile p = l := by
  induction l with
  | nil => rfl
  | cons c cs ih =>
    simp only [List.all_cons, Bool.and_eq_true] at h
    simp [List.takeWhile_cons, h.1, ih h.2]

theorem dropWhile_eq_nil_of_all {p : Char → Bool} {l : List Char}
    (h : l.all p = true) : l.dropWhile p = [] := by
  induction l with
  | nil => rfl
  | cons c cs ih =>
    simp only [List.all_cons, Bool.and_eq_true] at h
    simp [List.dropWhile_cons, h.1, ih h.2]

theorem takeWhile_append_stop {p : Char → Bool} {l t : List Char} {c : Char}
    (h : l.all p = true) (hc : p c = false) :
    (l ++ c :: t).takeWhile p = l := by
  induction l with
  | nil => simp [List.takeWhile_cons, hc]
  | cons d ds ih =>
    simp only [List.all_cons, Bool.and_eq_true] at h
    simp [List.takeWhile_cons, h.1, ih h.2]

theorem dropWhile_append_stop {p : Char → Bool} {l t : List Char} {c : Char}
    (h : l.all p = true) (hc : p c = false) :
    (l ++ c :: t).dropWhile p = c :: t := by
  induction l with
  | nil => simp [List.dropWhile_cons, hc]
  | cons d ds ih =>
    simp only [List.all_cons, Bool.and_eq_true] at h
    simp [List.dropWhile_cons, h.1, ih h.2]

/-- An embargoed stack is never reported superseded (the embargo branch of
`isSupersededVersion`). -/
theorem superseded_false_of_embargoed {now : Int} {stack : StackSummary}
    {base : List Char} {av : ActiveVersions}
    (h : isEmbargoed now stack.creationTime = true) :
    isSupersededVersion now stack base av = false := by
  unfold isSupersededVersion
  cases hg : getVersion (forceName stack) base with
  | none => rfl
  | some p => cases p with | mk v sb => simp [h]

/-- Inversion of `isSupersededVersion = true`: the stack parsed as
versioned, is past its embargo, and its relevant active version is a known
non-empty string different from the stack's version. -/
theorem superseded_inversion {now : Int} {stack : StackSummary}
    {base : List Char} {av : ActiveVersions}
    (h : isSupersededVersion now stack base av = true) :
    ∃ v sb cv, getVersion (forceName stack) base = some (v, sb) ∧
      isEmbargoed now stack.creationTime = false ∧
      (if sb then av.sandboxEnvVersion else some av.baseEnvVersion) = some cv ∧
      cv ≠ [] ∧ v ≠ normalize cv := by
  unfold isSupersededVersion at h
  cases hg : getVersion (forceName stack) base with
  | none => rw [hg] at h; exact absurd h (by simp)
  | some p =>
    cases p with
    | mk v sb =>
      rw [hg] at h
      dsimp only at h
      by_cases hemb : isEmbargoed now stack.creationTime = true
      · rw [if_pos hemb] at h; exact absurd h (by simp)
      · rw [if_neg hemb] at h
        cases hcv : (if sb then av.sandboxEnvVersion else some av.baseEnvVersion) with
        | none => rw [hcv] at h; exact absurd h (by simp)
        | some cv =>
          rw [hcv] at h
          dsimp only at h
          by_cases hnil : cv = []
          · rw [if_pos hnil] at h; exact absurd h (by simp)
          · rw [if_neg hnil] at h
            exact ⟨v, sb, cv, rfl, Bool.eq_false_iff.mpr hemb, hcv, hnil,
              of_decide_eq_true h⟩

/-- Inversion of membership in the deleted list of the main-sweep loop. -/
theorem mainLoop_mem {now : Int} {base : List Char} {av : ActiveVersions}
    {del : List Char → Bool} {l : List StackSummary} {n : List Char}
    (h : n ∈ (mainLoop now base av del l).1) :
    ∃ s ∈ l, s.stackName = some n ∧ s.stackStatus ≠ deleteCompleteLit ∧
      isSupersededVersion now s base av = true ∧ del n = true := by
  induction l with
  | nil => simp [mainLoop] at h
  | cons s rest ih =>
    rw [mainLoop] at h
    by_cases hskip : s.stackStatus = deleteCompleteLit ∨ s.stackName = none
    · rw [if_pos hskip] at h
      obtain ⟨t, ht, hprops⟩ := ih h
      exact ⟨t, List.mem_cons_of_mem _ ht, hprops⟩
    · rw [if_neg hskip] at h
      push_neg at hskip
      obtain ⟨hstatus, hname⟩ := hskip
      obtain ⟨m, hm⟩ := Option.ne_none_iff_exists'.mp hname
      by_cases hsup : isSupersededVersion now s base av = true
      · rw [if_pos hsup] at h
        by_cases hdel : del (forceName s) = true
        · rw [if_pos hdel] at h
          rcases List.mem_cons.mp h with heq | htail
          · refine ⟨s, List.mem_cons_self _ _, ?_, hstatus, hsup, ?_⟩
            · rw [hm]; rw [heq]; simp [forceName, hm]
            · rw [heq]; exact hdel
          · obtain ⟨t, ht, hprops⟩ := ih htail
            exact ⟨t, List.mem_cons_of_mem _ ht, hprops⟩
        · rw [if_neg hdel] at h; simp at h
      · rw [if_neg hsup] at h
        obtain ⟨t, ht, hprops⟩ := ih h
        exact ⟨t, List.mem_cons_of_mem _ ht, hprops⟩

/-- A name deleted by `deleteUnusedMainStacks` was deleted by its loop. -/
theorem deleteUnusedMainStacks_mem {now : Int} {base : List Char}
    {av : ActiveVersions} {allStacks : List StackSummary}
    {del : List Char → Bool} {n : List Char}
    (h : n ∈ (deleteUnusedMainStacks now base av allStacks del).1) :
    ∃ s ∈ allStacks, s.stackName = some n ∧ s.stackStatus ≠ deleteCompleteLit ∧
      isSupersededVersion now s base av = true ∧ del n = true := by
  unfold deleteUnusedMainStacks at h
  by_cases hg : isEmbargoed now
      ((allStacks.find? (activePred base av)).bind (·.creationTime)) = true
  · rw [if_pos hg] at h; simp at h
  · rw [if_neg hg] at h; exact mainLoop_mem h

/-- Inversion of `isClosedPullRequest = ok true`: the name matched the PR
pattern and the fetch resolved ok with state exactly `"closed"`. -/
theorem isClosedPullRequest_ok_true_iff {name base : List Char}
    {fetchPr : List Char → FetchOutcome} :
    isClosedPullRequest name base fetchPr = .ok true ↔
      ∃ id, prIdOf name base = some id ∧
        fetchPr id = .resp true (some closedLit) := by
  unfold isClosedPullRequest
  cases hp : prIdOf name base with
  | none => simp
  | some id =>
    cases hf : fetchPr id with
    | reject => simp [hf]
    | resp ok state =>
      cases ok with
      | false => simp [hf]
      | true =>
        by_cases hst : state = some closedLit
        · subst hst
          simp [hf]
        · simp [hst, hf]

/-- Inversion of membership in the deleted list of the PR-sweep loop. -/
theorem prLoop_mem {base : List Char} {fetchPr : List Char → FetchOutcome}
    {del : List Char → Bool} {l : List StackSummary} {n : List Char}
    (h : n ∈ (prLoop base fetchPr del l).1) :
    ∃ s ∈ l, s.stackName = some n ∧ s.stackStatus ≠ deleteCompleteLit ∧
      isClosedPullRequest n base fetchPr = .ok true ∧ del n = true := by
  induction l with
  | nil => simp [prLoop] at h
  | cons s rest ih =>
    rw [prLoop] at h
    by_cases hskip : s.stackStatus = deleteCompleteLit ∨ s.stackName = none
    · rw [if_pos hskip] at h
      obtain ⟨t, ht, hprops⟩ := ih h
      exact ⟨t, List.mem_cons_of_mem _ ht, hprops⟩
    · rw [if_neg hskip] at h
      push_neg at hskip
      obtain ⟨hstatus, hname⟩ := hskip
      obtain ⟨m, hm⟩ := Option.ne_none_iff_exists'.mp hname
      cases hc : isClosedPullRequest (forceName s) base fetchPr with
      | error e => rw [hc] at h; simp at h
      | ok b =>
        cases b with
        | false =>
          rw [hc] at h
          obtain ⟨t, ht, hprops⟩ := ih h
          exact ⟨t, List.mem_cons_of_mem _ ht, hprops⟩
        | true =>
          rw [hc] at h
          by_cases hdel : del (forceName s) = true
          · rw [if_pos hdel] at h
            rcases List.mem_cons.mp h with heq | htail
            · refine ⟨s, List.mem_cons_self _ _, ?_, hstatus, ?_, ?_⟩
              · rw [hm]; rw [heq]; simp [forceName, hm]
              · rw [heq]; exact hc
              · rw [heq]; exact hdel
            · obtain ⟨t, ht, hprops⟩ := ih htail
              exact ⟨t, List.mem_cons_of_mem _ ht, hprops⟩
          · rw [if_neg hdel] at h; simp at h

/-- C1 (corrected claim, counterexample): the claim also asserts that when
no non-sandbox unit matching the active base-environment version is found,
zero version-based deletions occur; in the code `isEmbargoed(undefined)` is
`false`, so the sweep proceeds: here no stack matches active version
`v2.0.0`, yet the superseded `api-v1-0-0` is deleted. -/
theorem C1_counterexample :
    ([({stackName := some (str "api-v1-0-0"), stackStatus := str "CREATE_COMPLETE",
        creationTime := some 0} : StackSummary)].find?
      (activePred (str "api") ⟨str "v2.0.0", none⟩)) = none ∧
    (deleteUnusedMainStacks 172800000 (str "api") ⟨str "v2.0.0", none⟩
      [{stackName := some (str "api-v1-0-0"), stackStatus := str "CREATE_COMPLETE",
        creationTime := some 0}] (fun _ => true)).1 = [str "api-v1-0-0"] := by
  decide

/-- C1 (amended): when the settling-guard search over the enumerated units
does find a unit matching the active base-environment version (after
normalizing `.` to `-`) and that unit's creation time is within the
24-hour embargo window, `deleteUnusedMainStacks` performs zero
version-based deletions in that run; when no such unit is found the sweep
proceeds. -/
theorem C1_settling_guard (now : Int) (base : List Char) (av : ActiveVersions)
    (allStacks : List StackSummary) (del : List Char → Bool)
    (s : StackSummary) (t : Int)
    (hfind : allStacks.find? (activePred base av) = some s)
    (ht : s.creationTime = some t) (hemb : now - t < embargoWindow) :
    deleteUnusedMainStacks now base av allStacks del = ([], false) := by
  unfold deleteUnusedMainStacks
  rw [hfind]
  dsimp only [Option.bind]
  rw [ht]
  simp [isEmbargoed, hemb]

/-- Witness for C1 (scenario B): the active version's own stack was
deployed one hour before `now`, so nothing is deleted even though
`api-v1-2-2` is superseded. -/
theorem C1_settling_guard_witness :
    deleteUnusedMainStacks 172800000 (str "api") ⟨str "v1.2.3", none⟩
      [⟨some (str "api-v1-2-3"), str "CREATE_COMPLETE", some 169200000⟩,
       ⟨some (str "api-v1-2-2"), str "CREATE_COMPLETE", some 0⟩]
      (fun _ => true) = ([], false) :=
  C1_settling_guard 172800000 (str "api") ⟨str "v1.2.3", none⟩
    [⟨some (str "api-v1-2-3"), str "CREATE_COMPLETE", some 169200000⟩,
     ⟨some (str "api-v1-2-2"), str "CREATE_COMPLETE", some 0⟩]
    (fun _ => true)
    ⟨some (str "api-v1-2-3"), str "CREATE_COMPLETE", some 169200000⟩ 169200000
    (by decide) rfl (by decide)

/-- C2 (corrected claim, counterexample): the pull-request sweep applies no
embargo: a PR stack created within the last 24 hours (here age 1000 ms)
whose PR is closed is deleted. -/
theorem C2_counterexample :
    isEmbargoed 1000 (some 0) = true ∧
    (deleteUnusedPrStacks (str "api")
      [⟨some (str "api-pr-7"), str "CREATE_COMPLETE", some 0⟩]
      (fun _ => FetchOutcome.resp true (some closedLit)) (fun _ => true)).1
      = [str "api-pr-7"] := by
  decide

/-- C2 (amended): for every unit whose age is strictly below 24 hours, the
version sweep's decision is KEEP — `isSupersededVersion` is `false` — and
`deleteUnusedMainStacks` never deletes such a unit; the pull-request sweep
applies no age check. -/
theorem C2_embargo_invariant :
    (∀ (now : Int) (stack : StackSummary) (base : List Char) (av : ActiveVersions),
      isEmbargoed now stack.creationTime = true →
      isSupersededVersion now stack base av = false) ∧
    (∀ (now : Int) (base : List Char) (av : ActiveVersions)
      (allStacks : List StackSummary) (del : List Char → Bool) (n : List Char),
      n ∈ (deleteUnusedMainStacks now base av allStacks del).1 →
      ∃ s ∈ allStacks, s.stackName = some n ∧
        isEmbargoed now s.creationTime = false) := by
  constructor
  · intro now stack base av h
    exact superseded_false_of_embargoed h
  · intro now base av allStacks del n h
    obtain ⟨s, hs, hname, _, hsup, _⟩ := deleteUnusedMainStacks_mem h
    obtain ⟨_, _, _, _, hemb, _⟩ := superseded_inversion hsup
    exact ⟨s, hs, hname, hemb⟩

/-- Witness for C2: a one-second-old superseded-version stack is still
reported not superseded. -/
theorem C2_embargo_invariant_witness :
    isSupersededVersion 1000
      ⟨some (str "api-v1-0-0"), str "CREATE_COMPLETE", some 0⟩
      (str "api") ⟨str "v2.0.0", none⟩ = false :=
  C2_embargo_invariant.1 1000
    ⟨some (str "api-v1-0-0"), str "CREATE_COMPLETE", some 0⟩
    (str "api") ⟨str "v2.0.0", none⟩ (by decide)

/-- C3: deletion needs a positive signal.  A sandbox-variant unit with no
known sandbox version is kept; a non-success PR fetch yields `false`; an
omitted or unresolved DNS zone yields an empty record index and no zone id;
with no zone id no alias deletion is issued; and any deleted unit had a
known, non-empty, differing active version (main sweep) or a confirmed
closed PR (PR sweep). -/
theorem C3_safety_invariant :
    (∀ (now : Int) (stack : StackSummary) (base : List Char)
       (av : ActiveVersions) (v : List Char),
      av.sandboxEnvVersion = none →
      getVersion (forceName stack) base = some (v, true) →
      isSupersededVersion now stack base av = false) ∧
    (∀ (name base : List Char) (fetchPr : List Char → FetchOutcome)
       (id : List Char) (st : Option (List Char)),
      prIdOf name base = some id → fetchPr id = .resp false st →
      isClosedPullRequest name base fetchPr = .ok false) ∧
    (∀ (findZone : List Char → Option (List Char))
       (records : List ResourceRecordSet),
      getHostedZoneInfo none findZone records = (none, []) ∧
      ∀ zoneName, findZone zoneName = none →
        getHostedZoneInfo (some zoneName) findZone records = (none, [])) ∧
    (∀ (records : List ResourceRecordSet) (stackName : List Char),
      aliasBatch none records stackName = none) ∧
    (∀ (now : Int) (base : List Char) (av : ActiveVersions)
       (allStacks : List StackSummary) (del : List Char → Bool) (n : List Char),
      n ∈ (deleteUnusedMainStacks now base av allStacks del).1 →
      ∃ v sb cv, getVersion n base = some (v, sb) ∧
        (if sb then av.sandboxEnvVersion else some av.baseEnvVersion) = some cv ∧
        cv ≠ [] ∧ v ≠ normalize cv) ∧
    (∀ (base : List Char) (allStacks : List StackSummary)
       (fetchPr : List Char → FetchOutcome) (del : List Char → Bool)
       (n : List Char),
      n ∈ (deleteUnusedPrStacks base allStacks fetchPr del).1 →
      ∃ id, prIdOf n base = some id ∧
        fetchPr id = .resp true (some closedLit)) := by
  refine ⟨?_, ?_, ?_, ?_, ?_, ?_⟩
  · intro now stack base av v hs hg
    unfold isSupersededVersion
    rw [hg]
    dsimp only
    by_cases hemb : isEmbargoed now stack.creationTime = true
    · simp [hemb]
    · simp [hemb, hs]
  · intro name base fetchPr id st hid hf
    simp [isClosedPullRequest, hid, hf]
  · intro findZone records
    exact ⟨rfl, fun zoneName hz => by simp [getHostedZoneInfo, hz]⟩
  · intro records stackName
    unfold aliasBatch
    simp
  · intro now base av allStacks del n h
    obtain ⟨s, _, hname, _, hsup, _⟩ := deleteUnusedMainStacks_mem h
    obtain ⟨v, sb, cv, hg, _, hcv, hnil, hne⟩ := superseded_inversion hsup
    refine ⟨v, sb, cv, ?_, hcv, hnil, hne⟩
    simpa [forceName, hname] using hg
  · intro base allStacks fetchPr del n h
    obtain ⟨_, _, _, _, hclosed, _⟩ := prLoop_mem h
    exact isClosedPullRequest_ok_true_iff.mp hclosed

/-- Witness for C3 (scenario C): a two-day-old sandbox-variant stack is
kept when the sandbox active version is unknown. -/
theorem C3_safety_invariant_witness :
    isSupersededVersion 172800000
      ⟨some (str "api-sandbox-v1-2-2"), str "CREATE_COMPLETE", some 0⟩
      (str "api") ⟨str "v1.2.3", none⟩ = false :=
  C3_safety_invariant.1 172800000
    ⟨some (str "api-sandbox-v1-2-2"), str "CREATE_COMPLETE", some 0⟩
    (str "api") ⟨str "v1.2.3", none⟩ (str "v1-2-2") rfl (by decide)

/-- C4 (corrected claim, counterexample): the loop has no try/catch: with
three superseded candidates and `deleteStack` rejecting on `api-v1-0-0`,
the run aborts with zero deletions, even though `api-v2-0-0` is superseded
and its own deletion would have succeeded. -/
theorem C4_counterexample :
    deleteUnusedMainStacks 172800000 (str "api") ⟨str "v3.0.0", none⟩
      [⟨some (str "api-v3-0-0"), str "CREATE_COMPLETE", some 0⟩,
       ⟨some (str "api-v1-0-0"), str "CREATE_COMPLETE", some 0⟩,
       ⟨some (str "api-v2-0-0"), str "CREATE_COMPLETE", some 0⟩]
      (fun n => !(n == str "api-v1-0-0")) = ([], true) ∧
    isSupersededVersion 172800000
      ⟨some (str "api-v2-0-0"), str "CREATE_COMPLETE", some 0⟩
      (str "api") ⟨str "v3.0.0", none⟩ = true ∧
    (!(str "api-v2-0-0" == str "api-v1-0-0")) = true := by
  decide

/-- C4 (amended): a deletion error is not caught: when the `deleteStack`
call for a superseded unit rejects, the loop stops at that unit — the
result is `([], aborted)` whatever the remaining units are, so no later
unit of the batch is evaluated or deleted. -/
theorem C4_abort_on_failed_delete (now : Int) (base : List Char)
    (av : ActiveVersions) (del : List Char → Bool) (s : StackSummary)
    (n : List Char)
    (hstatus : s.stackStatus ≠ deleteCompleteLit) (hname : s.stackName = some n)
    (hsup : isSupersededVersion now s base av = true) (hdel : del n = false)
    (rest : List StackSummary) :
    mainLoop now base av del (s :: rest) = ([], true) := by
  rw [mainLoop]
  rw [if_neg (by simp [hstatus, hname])]
  rw [if_pos hsup]
  rw [if_neg (by simp [forceName, hname, hdel])]

/-- Witness for C4: concrete aborted run. -/
theorem C4_abort_on_failed_delete_witness :
    mainLoop 172800000 (str "api") ⟨str "v3.0.0", none⟩
      (fun n => !(n == str "api-v1-0-0"))
      [⟨some (str "api-v1-0-0"), str "CREATE_COMPLETE", some 0⟩,
       ⟨some (str "api-v2-0-0"), str "CREATE_COMPLETE", some 0⟩] = ([], true) :=
  C4_abort_on_failed_delete 172800000 (str "api") ⟨str "v3.0.0", none⟩
    (fun n => !(n == str "api-v1-0-0"))
    ⟨some (str "api-v1-0-0"), str "CREATE_COMPLETE", some 0⟩
    (str "api-v1-0-0") (by decide) rfl (by decide) (by decide)
    [⟨some (str "api-v2-0-0"), str "CREATE_COMPLETE", some 0⟩]

/-- C5 (corrected claim, counterexample): a DELETE_COMPLETE unit does
influence the run: the settling-guard `find` does not filter by status, so
a terminal stack matching the active version and created recently triggers
the guard and suppresses all deletions, while the same run without it
deletes `api-v1-0-0`. -/
theorem C5_counterexample :
    (⟨some (str "api-v2-0-0"), str "DELETE_COMPLETE", some 172000000⟩ :
      StackSummary).stackStatus = deleteCompleteLit ∧
    (deleteUnusedMainStacks 172800000 (str "api") ⟨str "v2.0.0", none⟩
      [⟨some (str "api-v2-0-0"), str "DELETE_COMPLETE", some 172000000⟩,
       ⟨some (str "api-v1-0-0"), str "CREATE_COMPLETE", some 0⟩,
       ⟨some (str "api-v2-0-0"), str "CREATE_COMPLETE", some 0⟩]
      (fun _ => true)).1 = [] ∧
    (deleteUnusedMainStacks 172800000 (str "api") ⟨str "v2.0.0", none⟩
      [⟨some (str "api-v1-0-0"), str "CREATE_COMPLETE", some 0⟩,
       ⟨some (str "api-v2-0-0"), str "CREATE_COMPLETE", some 0⟩]
      (fun _ => true)).1 = [str "api-v1-0-0"] := by
  decide

/-- C5 (amended): a DELETE_COMPLETE unit is itself never deleted — every
deleted name comes from a non-terminal unit, in both sweeps — but terminal
units are not filtered from the settling-guard search, whose result they
can change. -/
theorem C5_terminal_units :
    (∀ (now : Int) (base : List Char) (av : ActiveVersions)
       (allStacks : List StackSummary) (del : List Char → Bool) (n : List Char),
      n ∈ (deleteUnusedMainStacks now base av allStacks del).1 →
      ∃ s ∈ allStacks, s.stackName = some n ∧
        s.stackStatus ≠ deleteCompleteLit) ∧
    (∀ (base : List Char) (allStacks : List StackSummary)
       (fetchPr : List Char → FetchOutcome) (del : List Char → Bool)
       (n : List Char),
      n ∈ (deleteUnusedPrStacks base allStacks fetchPr del).1 →
      ∃ s ∈ allStacks, s.stackName = some n ∧
        s.stackStatus ≠ deleteCompleteLit) := by
  constructor
  · intro now base av allStacks del n h
    obtain ⟨s, hs, hname, hstatus, _⟩ := deleteUnusedMainStacks_mem h
    exact ⟨s, hs, hname, hstatus⟩
  · intro base allStacks fetchPr del n h
    obtain ⟨s, hs, hname, hstatus, _⟩ := prLoop_mem h
    exact ⟨s, hs, hname, hstatus⟩

/-- Witness for C5: the deleted `api-v1-0-0` of a concrete run comes from a
non-terminal unit. -/
theorem C5_terminal_units_witness :
    ∃ s ∈ [(⟨some (str "api-v1-0-0"), str "CREATE_COMPLETE", some 0⟩ :
            StackSummary),
           ⟨some (str "api-v2-0-0"), str "CREATE_COMPLETE", some 0⟩],
      s.stackName = some (str "api-v1-0-0") ∧
      s.stackStatus ≠ deleteCompleteLit :=
  C5_terminal_units.1 172800000 (str "api") ⟨str "v2.0.0", none⟩
    [⟨some (str "api-v1-0-0"), str "CREATE_COMPLETE", some 0⟩,
     ⟨some (str "api-v2-0-0"), str "CREATE_COMPLETE", some 0⟩]
    (fun _ => true) (str "api-v1-0-0") (by decide)

/-- C6 (corrected claim, counterexample): when the relevant active version
is the empty string — non-null, hence "known" in the claim's words — the
falsiness check `!currentVersion` keeps the unit even though its version
differs: the claim's DELETE verdict fails here. -/
theorem C6_counterexample :
    getVersion (str "api-v1-0-0") (str "api") = some (str "v1-0-0", false) ∧
    isEmbargoed 172800000 (some 0) = false ∧
    str "v1-0-0" ≠ normalize [] ∧
    isSupersededVersion 172800000
      ⟨some (str "api-v1-0-0"), str "CREATE_COMPLETE", some 0⟩
      (str "api") ⟨[], none⟩ = false := by
  decide

/-- C6 (amended): for every versioned unit past its embargo whose relevant
active version is known and non-empty, the unit is kept exactly when its
version equals the normalized active version, and reported superseded
otherwise; in scenario A, `api-v1-2-2` is deleted and `api-v1-2-3` kept. -/
theorem C6_version_retention :
    (∀ (now : Int) (stack : StackSummary) (base : List Char)
       (av : ActiveVersions) (v : List Char) (sb : Bool) (cv : List Char),
      getVersion (forceName stack) base = some (v, sb) →
      isEmbargoed now stack.creationTime = false →
      (if sb then av.sandboxEnvVersion else some av.baseEnvVersion) = some cv →
      cv ≠ [] →
      (isSupersededVersion now stack base av = false ↔ v = normalize cv)) ∧
    (deleteUnusedMainStacks 172800000 (str "api") ⟨str "v1.2.3", none⟩
      [⟨some (str "api-v1-2-3"), str "CREATE_COMPLETE", some 0⟩,
       ⟨some (str "api-v1-2-2"), str "CREATE_COMPLETE", some 0⟩]
      (fun _ => true)).1 = [str "api-v1-2-2"] := by
  constructor
  · intro now stack base av v sb cv hg hemb hcv hnil
    unfold isSupersededVersion
    rw [hg]
    dsimp only
    rw [hemb, hcv]
    simp [hnil]
  · decide

/-- Witness for C6: the retention rule applied to scenario A's kept unit. -/
theorem C6_version_retention_witness :
    (isSupersededVersion 172800000
      ⟨some (str "api-v1-2-3"), str "CREATE_COMPLETE", some 0⟩
      (str "api") ⟨str "v1.2.3", none⟩ = false) ↔
      str "v1-2-3" = normalize (str "v1.2.3") :=
  C6_version_retention.1 172800000
    ⟨some (str "api-v1-2-3"), str "CREATE_COMPLETE", some 0⟩
    (str "api") ⟨str "v1.2.3", none⟩ (str "v1-2-3") false (str "v1.2.3")
    (by decide) (by decide) rfl (by decide)

theorem all_version_of_digit {ds : List Char} (h : ds.all Char.isDigit = true) :
    ds.all isVersionChar = true := by
  rw [List.all_eq_true] at h ⊢
  intro c hc
  have hd := h c hc
  simp only [isVersionChar, Bool.or_eq_true]
  exact Or.inl (Or.inl hd)

theorem versionTail_dashPr (w : List Char) (hw : w.all isVersionChar = true) :
    versionTail (dashPrLit ++ w) = some (some ('p' :: 'r' :: '-' :: w)) := by
  show versionTail ('-' :: ('p' :: 'r' :: '-' :: w)) = _
  simp [versionTail, List.all_cons, hw, show isVersionChar 'p' = true from rfl,
    show isVersionChar 'r' = true from rfl, show isVersionChar '-' = true from rfl]

theorem fullMatch_dashPr (w : List Char) (hw : w.all isVersionChar = true) :
    fullMatch (dashPrLit ++ w) = some (some ('p' :: 'r' :: '-' :: w), false) := by
  have h1 : dropPrefix? sandboxLit (dashPrLit ++ w) = none := rfl
  unfold fullMatch
  rw [h1]
  dsimp only
  rw [versionTail_dashPr w hw]

theorem getVersion_pr_token (base w : List Char)
    (hw : w.all isVersionChar = true) :
    getVersion (base ++ (dashPrLit ++ w)) base = none := by
  unfold getVersion
  rw [dropPrefix?_append]
  dsimp only
  rw [fullMatch_dashPr w hw]
  rfl

theorem prIdOf_plain (base ds : List Char) (hne : ds ≠ [])
    (hdig : ds.all Char.isDigit = true) :
    prIdOf (base ++ (dashPrLit ++ ds)) base = some ds := by
  unfold prIdOf
  rw [show base ++ (dashPrLit ++ ds) = (base ++ dashPrLit) ++ ds from
    (List.append_assoc _ _ _).symm]
  rw [dropPrefix?_append]
  dsimp only
  rw [takeWhile_eq_self_of_all hdig, dropWhile_eq_nil_of_all hdig]
  simp [hne]

theorem prIdOf_sandbox (base ds : List Char) (hne : ds ≠ [])
    (hdig : ds.all Char.isDigit = true) :
    prIdOf (base ++ (dashPrLit ++ (ds ++ sandboxLit))) base = some ds := by
  unfold prIdOf
  rw [show base ++ (dashPrLit ++ (ds ++ sandboxLit))
      = (base ++ dashPrLit) ++ (ds ++ sandboxLit) from
    (List.append_assoc _ _ _).symm]
  rw [dropPrefix?_append]
  dsimp only
  rw [show ds ++ sandboxLit
      = ds ++ '-' :: ['s', 'a', 'n', 'd', 'b', 'o', 'x'] from rfl]
  rw [takeWhile_append_stop hdig (by decide),
    dropWhile_append_stop hdig (by decide)]
  simp [hne, sandboxLit]

theorem getVersion_bare (base : List Char) : getVersion base base = none := by
  unfold getVersion
  rw [dropPrefix?_self]
  rfl

theorem prIdOf_bare (base : List Char) : prIdOf base base = none := by
  unfold prIdOf
  rw [show base ++ dashPrLit = base ++ '-' :: ['p', 'r', '-'] from rfl]
  rw [dropPrefix?_too_long]

theorem superseded_false_of_unrecognized {now : Int} {stack : StackSummary}
    {base : List Char} {av : ActiveVersions}
    (h : getVersion (forceName stack) base = none) :
    isSupersededVersion now stack base av = false := by
  unfold isSupersededVersion
  rw [h]

theorem closed_false_of_unrecognized {name base : List Char}
    {fetchPr : List Char → FetchOutcome} (h : prIdOf name base = none) :
    isClosedPullRequest name base fetchPr = .ok false := by
  unfold isClosedPullRequest
  rw [h]

/-- C7: a version token beginning with `pr-` is never classified versioned:
for any all-version-characters token `w`, `{base}-pr-{w}` gets no version;
`{base}-pr-{digits}` and `{base}-pr-{digits}-sandbox` are recognized only
by the pull-request pattern; a bare `{base}` matches neither pattern; and a
name matching neither pattern is deleted by neither sweep. -/
theorem C7_name_parsing :
    (∀ base w : List Char, w.all isVersionChar = true →
      getVersion (base ++ (dashPrLit ++ w)) base = none) ∧
    (∀ base ds : List Char, ds ≠ [] → ds.all Char.isDigit = true →
      prIdOf (base ++ (dashPrLit ++ ds)) base = some ds ∧
      prIdOf (base ++ (dashPrLit ++ (ds ++ sandboxLit))) base = some ds ∧
      getVersion (base ++ (dashPrLit ++ (ds ++ sandboxLit))) base = none) ∧
    (∀ base : List Char, getVersion base base = none ∧ prIdOf base base = none) ∧
    (∀ (now : Int) (base n : List Char) (av : ActiveVersions)
       (allStacks : List StackSummary) (del : List Char → Bool)
       (fetchPr : List Char → FetchOutcome),
      getVersion n base = none → prIdOf n base = none →
      n ∉ (deleteUnusedMainStacks now base av allStacks del).1 ∧
      n ∉ (deleteUnusedPrStacks base allStacks fetchPr del).1) := by
  refine ⟨?_, ?_, ?_, ?_⟩
  · intro base w hw
    exact getVersion_pr_token base w hw
  · intro base ds hne hdig
    refine ⟨prIdOf_plain base ds hne hdig, prIdOf_sandbox base ds hne hdig,
      getVersion_pr_token base (ds ++ sandboxLit) ?_⟩
    rw [List.all_append, all_version_of_digit hdig]
    decide
  · intro base
    exact ⟨getVersion_bare base, prIdOf_bare base⟩
  · intro now base n av allStacks del fetchPr hg hp
    constructor
    · intro h
      obtain ⟨s, _, hname, _, hsup, _⟩ := deleteUnusedMainStacks_mem h
      obtain ⟨v, sb, cv, hg', _⟩ := superseded_inversion hsup
      have hfn : forceName s = n := by simp [forceName, hname]
      rw [hfn, hg] at hg'
      exact absurd hg' (by simp)
    · intro h
      obtain ⟨s, _, _, _, hclosed, _⟩ := prLoop_mem h
      obtain ⟨id, hid, _⟩ := isClosedPullRequest_ok_true_iff.mp hclosed
      rw [hp] at hid
      exact absurd hid (by simp)

/-- Witness for C7: `api-pr-123` has no version, parses as PR 123, and the
bare name `api` matches neither pattern. -/
theorem C7_name_parsing_witness :
    getVersion (str "api" ++ (dashPrLit ++ str "123")) (str "api") = none ∧
    prIdOf (str "api" ++ (dashPrLit ++ str "123")) (str "api")
      = some (str "123") ∧
    getVersion (str "api") (str "api") = none :=
  ⟨C7_name_parsing.1 (str "api") (str "123") (by decide),
   (C7_name_parsing.2.1 (str "api") (str "123") (by decide) (by decide)).1,
   (C7_name_parsing.2.2.1 (str "api")).1⟩

/-- C8: with no zone name or an unresolved zone the record index is empty
and no zone id is kept, so every stack deletion proceeds with no alias
call; with a zone, the index is the zone's CNAME records, and each deletion
sends one batch holding exactly the records whose name contains the stack
name — or nothing when no record matches or no zone id is available. -/
theorem C8_alias_cleanup :
    (∀ (findZone : List Char → Option (List Char))
       (records : List ResourceRecordSet),
      getHostedZoneInfo none findZone records = (none, []) ∧
      ∀ zoneName, findZone zoneName = none →
        getHostedZoneInfo (some zoneName) findZone records = (none, [])) ∧
    (∀ (records : List ResourceRecordSet) (stackName : List Char),
      deleteStackEffect none records stackName = (stackName, none)) ∧
    (∀ (findZone : List Char → Option (List Char))
       (records : List ResourceRecordSet) (zoneName zoneId : List Char),
      findZone zoneName = some zoneId →
      getHostedZoneInfo (some zoneName) findZone records
        = (some zoneId, records.filter fun r => r.type = cnameLit)) ∧
    (∀ (zoneId stackName : List Char) (cnames : List ResourceRecordSet),
      cnames.filter (recordMatches stackName) ≠ [] →
      deleteStackEffect (some zoneId) cnames stackName
        = (stackName, some (cnames.filter (recordMatches stackName)))) ∧
    (∀ (zoneId stackName : List Char) (cnames : List ResourceRecordSet),
      cnames.filter (recordMatches stackName) = [] →
      deleteStackEffect (some zoneId) cnames stackName = (stackName, none)) := by
  refine ⟨?_, ?_, ?_, ?_, ?_⟩
  · intro findZone records
    exact ⟨rfl, fun zoneName hz => by simp [getHostedZoneInfo, hz]⟩
  · intro records stackName
    simp [deleteStackEffect, aliasBatch]
  · intro findZone records zoneName zoneId hz
    simp [getHostedZoneInfo, hz]
  · intro zoneId stackName cnames hne
    simp [deleteStackEffect, aliasBatch, hne]
  · intro zoneId stackName cnames hnil
    simp [deleteStackEffect, aliasBatch, hnil]

/-- Witness for C8 (scenario D): deleting `api-pr-123` removes exactly the
record containing its name, in one batch. -/
theorem C8_alias_cleanup_witness :
    deleteStackEffect (some (str "Z123"))
      [⟨some (str "api-pr-123.dev.eps.national.nhs.uk."), str "CNAME"⟩,
       ⟨some (str "api-v1-0-0.dev.eps.national.nhs.uk."), str "CNAME"⟩]
      (str "api-pr-123")
      = (str "api-pr-123",
         some ([⟨some (str "api-pr-123.dev.eps.national.nhs.uk."), str "CNAME"⟩,
                ⟨some (str "api-v1-0-0.dev.eps.national.nhs.uk."), str "CNAME"⟩].filter
           (recordMatches (str "api-pr-123")))) :=
  C8_alias_cleanup.2.2.2.1 (str "Z123") (str "api-pr-123")
    [⟨some (str "api-pr-123.dev.eps.national.nhs.uk."), str "CNAME"⟩,
     ⟨some (str "api-v1-0-0.dev.eps.national.nhs.uk."), str "CNAME"⟩]
    (by decide)

/-- C9 (corrected claim, counterexample): an error thrown by the fetch
inside `isClosedPullRequest` is not caught: it propagates (modelled as
`Except.error`), it does not resolve to `false`. -/
theorem C9_counterexample :
    isClosedPullRequest (str "api-pr-5") (str "api")
      (fun _ => FetchOutcome.reject) = .error () ∧
    prIdOf (str "api-pr-5") (str "api") = some (str "5") :=
  ⟨rfl, by decide⟩

/-- C9 (amended): `isClosedPullRequest` answers `true` exactly for a
successful response with state `"closed"`; a non-success response or any
other state resolves to `false`; a rejected fetch propagates as an
exception instead of being logged; and every stack the PR sweep deletes
had a confirmed closed PR — so a tracker outage never causes deletion. -/
theorem C9_review_state_check :
    (∀ (name base : List Char) (fetchPr : List Char → FetchOutcome),
      isClosedPullRequest name base fetchPr = .ok true ↔
        ∃ id, prIdOf name base = some id ∧
          fetchPr id = .resp true (some closedLit)) ∧
    (∀ (name base : List Char) (fetchPr : List Char → FetchOutcome)
       (id : List Char) (st : Option (List Char)),
      prIdOf name base = some id → fetchPr id = .resp false st →
      isClosedPullRequest name base fetchPr = .ok false) ∧
    (∀ (name base : List Char) (fetchPr : List Char → FetchOutcome)
       (id : List Char) (st : Option (List Char)),
      prIdOf name base = some id → fetchPr id = .resp true st →
      st ≠ some closedLit → isClosedPullRequest name base fetchPr = .ok false) ∧
    (∀ (name base : List Char) (fetchPr : List Char → FetchOutcome)
       (id : List Char),
      prIdOf name base = some id → fetchPr id = .reject →
      isClosedPullRequest name base fetchPr = .error ()) ∧
    (∀ (base : List Char) (allStacks : List StackSummary)
       (fetchPr : List Char → FetchOutcome) (del : List Char → Bool)
       (n : List Char),
      n ∈ (deleteUnusedPrStacks base allStacks fetchPr del).1 →
      isClosedPullRequest n base fetchPr = .ok true) := by
  refine ⟨?_, ?_, ?_, ?_, ?_⟩
  · intro name base fetchPr
    exact isClosedPullRequest_ok_true_iff
  · intro name base fetchPr id st hid hf
    simp [isClosedPullRequest, hid, hf]
  · intro name base fetchPr id st hid hf hst
    simp [isClosedPullRequest, hid, hf, hst]
  · intro name base fetchPr id hid hf
    simp [isClosedPullRequest, hid, hf]
  · intro base allStacks fetchPr del n h
    obtain ⟨_, _, _, _, hclosed, _⟩ := prLoop_mem h
    exact hclosed

/-- Witness for C9 (scenario E): PR 456 reported open, stack kept. -/
theorem C9_review_state_check_witness :
    isClosedPullRequest (str "api-pr-456") (str "api")
      (fun _ => FetchOutcome.resp true (some (str "open"))) = .ok false :=
  C9_review_state_check.2.2.1 (str "api-pr-456") (str "api")
    (fun _ => FetchOutcome.resp true (some (str "open")))
    (str "456") (some (str "open")) (by decide) rfl (by decide)

/-- C10: the sandbox oracle is consulted exactly for environment `int`
(domain `sandbox`) and `internal-dev` (domain `internal-dev-sandbox`); any
other environment queries no sandbox domain and yields a null sandbox
version, and with a null sandbox version no sandbox-variant unit is ever
deleted — every deleted unit of the main sweep parses as non-sandbox. -/
theorem C10_sandbox_gating :
    (∀ (oracle : List Char → Except Unit (List Char)) (av : ActiveVersions)
       (queried : List (List Char)),
      getActiveApiVersions intLit oracle = .ok (av, queried) →
      queried = [sandboxDomainLit]) ∧
    (∀ (oracle : List Char → Except Unit (List Char)) (av : ActiveVersions)
       (queried : List (List Char)),
      getActiveApiVersions internalDevLit oracle = .ok (av, queried) →
      queried = [internalDevSandboxLit]) ∧
    (∀ (env : List Char) (oracle : List Char → Except Unit (List Char))
       (av : ActiveVersions) (queried : List (List Char)),
      env ≠ intLit → env ≠ internalDevLit →
      getActiveApiVersions env oracle = .ok (av, queried) →
      queried = [] ∧ av.sandboxEnvVersion = none) ∧
    (∀ (now : Int) (base n : List Char) (av : ActiveVersions)
       (allStacks : List StackSummary) (del : List Char → Bool),
      av.sandboxEnvVersion = none →
      n ∈ (deleteUnusedMainStacks now base av allStacks del).1 →
      ∃ v, getVersion n base = some (v, false)) := by
  refine ⟨?_, ?_, ?_, ?_⟩
  · intro oracle av queried h
    unfold getActiveApiVersions at h
    cases hb : oracle intLit with
    | error e => rw [hb] at h; exact absurd h (by simp)
    | ok bv =>
      rw [hb] at h
      dsimp only at h
      rw [if_pos rfl] at h
      cases hs : oracle sandboxDomainLit with
      | ok v =>
        rw [hs] at h
        injection h with h3
        injection h3 with ha hq
        exact hq.symm
      | error e =>
        rw [hs] at h
        injection h with h3
        injection h3 with ha hq
        exact hq.symm
  · intro oracle av queried h
    unfold getActiveApiVersions at h
    cases hb : oracle internalDevLit with
    | error e => rw [hb] at h; exact absurd h (by simp)
    | ok bv =>
      rw [hb] at h
      dsimp only at h
      rw [if_neg (by decide), if_pos rfl] at h
      cases hs : oracle internalDevSandboxLit with
      | ok v =>
        rw [hs] at h
        injection h with h3
        injection h3 with ha hq
        exact hq.symm
      | error e =>
        rw [hs] at h
        injection h with h3
        injection h3 with ha hq
        exact hq.symm
  · intro env oracle av queried h1 h2 h
    unfold getActiveApiVersions at h
    cases hb : oracle env with
    | error e => rw [hb] at h; exact absurd h (by simp)
    | ok bv =>
      rw [hb] at h
      dsimp only at h
      rw [if_neg h1, if_neg h2] at h
      injection h with h3
      injection h3 with ha hq
      exact ⟨hq.symm, by rw [← ha]⟩
  · intro now base n av allStacks del hs h
    obtain ⟨s, _, hname, _, hsup, _⟩ := deleteUnusedMainStacks_mem h
    obtain ⟨v, sb, cv, hg, _, hcv, _, _⟩ := superseded_inversion hsup
    have hfn : forceName s = n := by simp [forceName, hname]
    rw [hfn] at hg
    cases sb with
    | true => rw [if_pos rfl, hs] at hcv; exact absurd hcv (by simp)
    | false => exact ⟨v, hg⟩

/-- Witness for C10: in a non-sandbox environment the deleted
`api-v1-0-0` parses as a non-sandbox unit. -/
theorem C10_sandbox_gating_witness :
    ∃ v, getVersion (str "api-v1-0-0") (str "api") = some (v, false) :=
  C10_sandbox_gating.2.2.2 172800000 (str "api") (str "api-v1-0-0")
    ⟨str "v2.0.0", none⟩
    [⟨some (str "api-v1-0-0"), str "CREATE_COMPLETE", some 0⟩]
    (fun _ => true) rfl (by decide)

end DeleteUnusedStacks
